import Mathlib

/-!
Verification of the internship-finder ingestion/dedup/filter pipeline.

This file gives a shallow embedding of the core of the repository
(src/bot.py, src/utils/helpers.py, src/utils/seen_jobs.py,
src/models/internship.py, src/fetchers/base_fetcher.py) and proves
properties of the embedded definitions.

Modelling conventions:
  - Python sets are Finset String; Python datetimes are Int seconds (UTC).
  - Fallible external IO (Firestore, local JSON file, network fetch) is
    modelled by explicit availability/failure flags passed to the
    functions that perform the IO in the source; a caught exception
    corresponds to the failure flag being set.
  - A Python value that may be None is an Option; a falsy string is "".
-/

namespace InternshipBot

/-! ### helpers.py -/

/-- Python str whitespace (ASCII): space, tab, newline, carriage
return, vertical tab, form feed. -/
def py_is_space (c : Char) : Bool :=
  c.toNat = 32 || c.toNat = 9 || c.toNat = 10 || c.toNat = 13 ||
    c.toNat = 11 || c.toNat = 12

/-- Python str.strip() with no argument: drop leading and trailing
whitespace. -/
def py_strip (s : String) : String :=
  String.mk (((s.data.dropWhile py_is_space).reverse.dropWhile py_is_space).reverse)

/-- Helper for py_split_ws: walk the characters, accumulating the
current word (reversed) and emitting it at each whitespace run. -/
def splitWsAux : List Char → List Char → List String
  | [], acc => if acc = [] then [] else [String.mk acc.reverse]
  | c :: cs, acc =>
    if py_is_space c then
      if acc = [] then splitWsAux cs []
      else String.mk acc.reverse :: splitWsAux cs []
    else splitWsAux cs (c :: acc)

/-- Python str.split() with no argument: split on whitespace runs and
discard empty fragments (used by clean_text, helpers.py line 94). -/
def py_split_ws (s : String) : List String :=
  splitWsAux s.data []

/-- helpers.py clean_text: collapse whitespace runs to single spaces,
drop control characters (keeping tab/newline/carriage return), strip. -/
def clean_text (text : String) : String :=
  if text = "" then ""
  else
    let joined := String.intercalate " " (py_split_ws text)
    let filtered := String.mk (joined.data.filter
      (fun c => decide (32 ≤ c.toNat) || c = '\n' || c = '\r' || c = '\t'))
    py_strip filtered

/-- Python range(start, stop, step) for a positive step (helpers.py
line 220 uses range(0, len(lst), chunk_size)). -/
def pyRange (start stop step : Nat) : List Nat :=
  (List.range ((stop - start + step - 1) / step)).map (fun j => start + j * step)

/-- Python slice lst[i:j] for 0 <= i <= j. -/
def pySlice {α : Type} (lst : List α) (i j : Nat) : List α :=
  (lst.drop i).take (j - i)

/-- helpers.py chunk_list: [lst[i:i + chunk_size] for i in
range(0, len(lst), chunk_size)]. -/
def chunk_list {α : Type} (lst : List α) (chunk_size : Nat) : List (List α) :=
  (pyRange 0 lst.length chunk_size).map (fun i => pySlice lst i (i + chunk_size))

/-- Take/drop recursion computing chunks of size k+1; proved equal to
chunk_list below and used to reason about it by induction. -/
def chunksRec {α : Type} (k : Nat) : List α → List (List α)
  | [] => []
  | a :: l => ((a :: l).take (k + 1)) :: chunksRec k ((a :: l).drop (k + 1))
termination_by l => l.length
decreasing_by
  simp [List.length_drop]
  omega

/-- The posted_date field of an internship dict as seen by
filter_last_24_hours: absent or falsy, a string that
datetime.fromisoformat rejects, or a parseable UTC timestamp. -/
inductive PostedVal where
  | missing : PostedVal
  | unparseable : PostedVal
  | time : Int → PostedVal
  deriving DecidableEq, Repr

/-- An internship dictionary as consumed by filter_last_24_hours
(produced by Internship.to_dict in the pipeline). -/
structure JobDict where
  url : String
  posted : PostedVal
  deriving DecidableEq, Repr

/-- The per-record predicate of helpers.py filter_last_24_hours: keep a
record iff its posted_date is present, parseable, and at least
current_time - 24h.  Missing or falsy posted_date hits the continue at
line 267; an unparseable string raises ValueError, caught at line 282
and also skipped. -/
def keep_last_24h (now : Int) (j : JobDict) : Bool :=
  match j.posted with
  | .missing => false
  | .unparseable => false
  | .time t => decide (now - 86400 ≤ t)

/-- helpers.py filter_last_24_hours. -/
def filter_last_24_hours (now : Int) (l : List JobDict) : List JobDict :=
  if l.isEmpty then [] else l.filter (keep_last_24h now)

/-! ### models/internship.py -/

/-- A constructed Internship (models/internship.py).  posted_date is
always set (the constructor defaults it to ingestion time).  The
open-ended kwargs metadata side-channel is not modelled: no claim
depends on it. -/
structure Internship where
  title : String
  company : String
  location : String
  url : String
  source : String
  posted_date : Int
  description : String
  deriving DecidableEq, Repr

/-- Internship.__init__: clean_text on the text fields, strip on the
url, posted_date defaulted to the current time when None. -/
def Internship.make (title company location url source : String)
    (posted_date : Option Int) (description : Option String) (now : Int) :
    Internship :=
  { title := clean_text title
    company := clean_text company
    location := clean_text location
    url := py_strip url
    source := source
    posted_date := posted_date.getD now
    description := clean_text (description.getD "") }

/-- Internship.__eq__: two Internship values compare equal iff their
stored (stripped) urls are equal.  The isinstance guard of the source
is subsumed by the Lean type. -/
def ieq (a b : Internship) : Bool :=
  a.url == b.url

/-- Internship.__hash__: hash of the stored url. -/
def ihash (a : Internship) : UInt64 :=
  a.url.hash

/-! ### bot.py fetch phase -/

/-- Behaviour of one adapter's fetch call as observed by
InternshipFinderBot._process_fetcher: it either raises (exceptions and
timeouts alike) or returns a value that may be None. -/
inductive FetchBehavior where
  | raises : String → FetchBehavior
  | returns : Option (List Internship) → FetchBehavior
  deriving Repr

/-- bot.py _process_fetcher: a raised exception is caught and converted
to the empty list; a returned None becomes the empty list via the
`internships or []` idiom (for list values that idiom agrees with
Option.getD since an empty list maps to the empty list either way). -/
def process_fetcher (f : FetchBehavior) : List Internship :=
  match f with
  | .raises _ => []
  | .returns r => r.getD []

/-- bot.py fetch_all_internships: run every fetcher through
_process_fetcher (so each result is an ordinary value, modelled as
Except.ok), then fold the results, skipping any that are exceptions
(the defensive isinstance branch of the gather loop) and appending the
rest in order. -/
def fetch_all_internships (fs : List FetchBehavior) : List Internship :=
  if fs.isEmpty then []
  else
    ((fs.map (fun f => (Except.ok (process_fetcher f) : Except String (List Internship)))).foldl
      (fun acc r => match r with
        | .error _ => acc
        | .ok lst => acc ++ lst) [])

/-! ### utils/seen_jobs.py -/

/-- State of the seen-jobs tracking module: the in-memory cache
(_seen_jobs_cache), the local mirror file's set of urls
(seen_jobs.json, set semantics), and the remote Firestore collection
seen_jobs as a list of (document id, seen_at) pairs. -/
structure SeenSt where
  cache : Finset String
  mirror : Finset String
  remote : List (String × Int)
  deriving DecidableEq

/-- Observable external effects of one seen-jobs operation. -/
inductive Effect where
  | remoteWrite : String → Effect
  | mirrorWrite : Effect
  deriving DecidableEq, Repr

/-- seen_jobs.py mark_seen: a falsy url returns immediately; otherwise
the url is added to the in-memory cache, then upserted into Firestore
when a client exists (failure caught and logged), then the whole cache
is rewritten to the local mirror (failure caught and logged).  The
optional data payload only adds extra Firestore fields and is not
modelled.  The effect list records which external tiers were
contacted. -/
def mark_seen (dbAvail remoteFails localFails : Bool) (now : Int)
    (s : SeenSt) (url : String) : SeenSt × List Effect :=
  if url = "" then (s, [])
  else
    let cache1 := insert url s.cache
    let remote1 :=
      if dbAvail && !remoteFails then
        (url, now) :: s.remote.filter (fun p => p.1 ≠ url)
      else s.remote
    let remEff : List Effect := if dbAvail then [Effect.remoteWrite url] else []
    let mirror1 := if localFails then s.mirror else cache1
    ({ cache := cache1, mirror := mirror1, remote := remote1 },
     remEff ++ [Effect.mirrorWrite])

/-- seen_jobs.py has_seen: membership in the in-memory cache only. -/
def has_seen (s : SeenSt) (url : String) : Bool :=
  decide (url ∈ s.cache)

/-- seen_jobs.py cleanup_seen_jobs: without a Firestore client this is
a no-op; otherwise the (up to 1000) remote docs whose seen_at is older
than now - days*86400 are deleted from the remote collection and their
ids are removed from the in-memory cache. -/
def cleanup_seen_jobs (dbAvail : Bool) (now : Int) (s : SeenSt)
    (days : Int) : SeenSt :=
  if !dbAvail then s
  else
    let cutoff := now - days * 86400
    let old := (s.remote.filter (fun p => decide (p.2 < cutoff))).take 1000
    { cache := s.cache \ (old.map Prod.fst).toFinset
      mirror := s.mirror
      remote := s.remote.filter (fun p => !old.contains p) }

/-- seen_jobs.py load_seen_jobs: with a Firestore client whose stream
succeeds, add the (up to 10000) remote doc ids to the cache and return
without reading the local file; only when there is no client, or the
stream raises, is the local file consulted (and only if it exists and
parses to a JSON list).  localFile is the parsed content of the local
mirror file: none covers a missing file, a read error, a JSON error and
a non-list value alike. -/
def load_seen_jobs (dbAvail remoteOk : Bool)
    (localFile : Option (List String)) (s : SeenSt) : SeenSt :=
  if dbAvail && remoteOk then
    { s with cache := s.cache ∪ ((s.remote.take 10000).map Prod.fst).toFinset }
  else
    match localFile with
    | some l => { s with cache := s.cache ∪ l.toFinset }
    | none => s

/-- One core operation on the seen-jobs state other than cleanup:
hydration, a has_seen query (read-only), or mark_seen. -/
inductive SeenOp where
  | hydrate : Bool → Bool → Option (List String) → SeenOp
  | mark : Bool → Bool → Bool → Int → String → SeenOp
  | query : String → SeenOp

/-- Apply one SeenOp to the seen-jobs state. -/
def seen_step (s : SeenSt) : SeenOp → SeenSt
  | .hydrate d r lf => load_seen_jobs d r lf s
  | .mark d rf lf now url => (mark_seen d rf lf now s url).1
  | .query _ => s

/-- Apply a sequence of SeenOps in order. -/
def seen_run (s : SeenSt) (ops : List SeenOp) : SeenSt :=
  ops.foldl seen_step s

/-! ### bot.py dedup state -/

/-- State of the orchestrator's dedup store: the in-memory seen_urls
set and the local mirror file seen_urls.json (set semantics). -/
structure BotSt where
  seen_urls : Finset String
  mirror : Finset String
  deriving DecidableEq

/-- bot.py _load_seen_urls: reset to empty, union in the local file's
list when it exists and parses to a JSON list, then union in the ids
fetched from Firestore (the fetch helper returns the empty set when the
stream raises, and the merge is skipped when the fetched set is
empty). -/
def load_seen_urls (localFile : Option (List String)) (remoteOk : Bool)
    (remoteIds : Finset String) : Finset String :=
  let s0 : Finset String := ∅
  let s1 := match localFile with
    | some l => s0 ∪ l.toFinset
    | none => s0
  let ids := if remoteOk then remoteIds else (∅ : Finset String)
  if ids = ∅ then s1 else s1 ∪ ids

/-- bot.py is_duplicate: membership in the in-memory seen_urls cache. -/
def is_duplicate (s : BotSt) (url : String) : Bool :=
  decide (url ∈ s.seen_urls)

/-- bot.py save_internship, restricted to its effect on the dedup
state: the Firestore document write happens first inside its own
try/except (a failure there is caught and only logged, touching neither
the cache nor the mirror), then the url is added to seen_urls
unconditionally, then the whole cache is rewritten to the local mirror
(a failure there is caught after the cache update).  The Firestore
internships collection itself stores record payloads, not dedup state,
and is not tracked. -/
def save_internship (remoteFails localFails : Bool) (s : BotSt)
    (url : String) : BotSt :=
  let cache1 := insert url s.seen_urls
  { seen_urls := cache1
    mirror := if localFails then s.mirror else cache1 }

/-- bot.py send_telegram_notification line 374: the fresh records are
chunked with batch size 5 before rendering and sequential submission. -/
def telegram_chunks (internships : List Internship) : List (List Internship) :=
  chunk_list internships 5

/-- Twelve pairwise distinct records, used to instantiate the batching
claim's concrete case. -/
def dozen_records : List Internship :=
  (List.range 12).map (fun i =>
    Internship.make "Title" "Co" "Remote" (String.mk [Char.ofNat (65 + i)])
      "rss" (some 0) (some "") 0)

/-! ### Helper lemmas -/

theorem chunksRec_flatten {α : Type} (k : Nat) (l : List α) :
    (chunksRec k l).flatten = l := by
  induction l using chunksRec.induct k with
  | case1 => simp [chunksRec]
  | case2 a l ih =>
    simp only [chunksRec, List.flatten_cons, ih]
    exact List.take_append_drop _ _

theorem chunksRec_length_four {α : Type} (l : List α) :
    (chunksRec 4 l).length = (l.length + 4) / 5 := by
  induction l using chunksRec.induct 4 with
  | case1 => simp [chunksRec]
  | case2 a l ih =>
    simp only [chunksRec, List.length_cons, ih, List.length_drop]
    omega

theorem chunksRec_mem_le {α : Type} (k : Nat) (l : List α) :
    ∀ c ∈ chunksRec k l, c.length ≤ k + 1 := by
  induction l using chunksRec.induct k with
  | case1 => simp [chunksRec]
  | case2 a l ih =>
    intro c hc
    simp only [chunksRec, List.mem_cons] at hc
    rcases hc with h | h
    · subst h
      simp [List.length_take]
    · exact ih c h

theorem chunksRec_dropLast {α : Type} (k : Nat) (l : List α) :
    ∀ c ∈ (chunksRec k l).dropLast, c.length = k + 1 := by
  induction l using chunksRec.induct k with
  | case1 => simp [chunksRec]
  | case2 a l ih =>
    intro c hc
    have heq : chunksRec k (a :: l) =
        ((a :: l).take (k + 1)) :: chunksRec k ((a :: l).drop (k + 1)) := by
      simp [chunksRec]
    rw [heq] at hc
    cases h0 : chunksRec k ((a :: l).drop (k + 1)) with
    | nil =>
      rw [h0] at hc
      simp at hc
    | cons x xs =>
      rw [h0] at hc
      have hdl : (((a :: l).take (k + 1)) :: x :: xs).dropLast =
          ((a :: l).take (k + 1)) :: (x :: xs).dropLast := rfl
      rw [hdl] at hc
      rcases List.mem_cons.mp hc with h | h
      · subst h
        have hd : (a :: l).drop (k + 1) ≠ [] := by
          intro hnil
          rw [hnil] at h0
          simp [chunksRec] at h0
        have hlen : k + 1 ≤ (a :: l).length := by
          by_contra hlt
          push_neg at hlt
          exact hd (List.drop_eq_nil_of_le (by omega))
        simp only [List.length_take]
        omega
      · rw [← h0] at h
        exact ih c h

theorem chunk_list_five_eq {α : Type} (lst : List α) :
    chunk_list lst 5 = chunksRec 4 lst := by
  induction lst using chunksRec.induct 4 with
  | case1 => simp [chunksRec, chunk_list, pyRange]
  | case2 a l ih =>
    have heq : chunksRec 4 (a :: l) =
        ((a :: l).take 5) :: chunksRec 4 ((a :: l).drop 5) := by
      simp [chunksRec]
    rw [heq, ← ih]
    have hdiv : ((a :: l).length - 0 + 5 - 1) / 5 =
        (((a :: l).drop 5).length - 0 + 5 - 1) / 5 + 1 := by
      simp only [List.length_drop, List.length_cons]
      omega
    unfold chunk_list pyRange
    rw [hdiv, List.range_succ_eq_map]
    simp only [List.map_cons, List.map_map]
    refine congrArg₂ List.cons ?_ ?_
    · simp [pySlice]
    · refine List.map_congr_left ?_
      intro j hj
      have h5 : (j + 1) * 5 = j * 5 + 5 := by ring
      simp only [Function.comp, Nat.succ_eq_add_one, h5, pySlice, Nat.zero_add,
        List.drop_drop]
      have h1 : j * 5 + 5 + 5 - (j * 5 + 5) = 5 := by omega
      have h2 : j * 5 + 5 - j * 5 = 5 := by omega
      rw [h1, h2]
      have h3 : 4 + 1 + j * 5 = j * 5 + 5 := by omega
      rw [h3]

theorem foldl_ok_append (ls : List (List Internship)) (acc : List Internship) :
    (ls.map (fun l => (Except.ok l : Except String (List Internship)))).foldl
      (fun acc r => match r with
        | .error _ => acc
        | .ok lst => acc ++ lst) acc = acc ++ ls.flatten := by
  induction ls generalizing acc with
  | nil => simp
  | cons h t ih =>
    simp only [List.map_cons, List.foldl_cons, ih, List.flatten_cons]
    rw [List.append_assoc]

theorem seen_step_mono (s : SeenSt) (op : SeenOp) :
    s.cache ⊆ (seen_step s op).cache := by
  cases op with
  | hydrate d r lf =>
    simp only [seen_step, load_seen_jobs]
    by_cases h : (d && r) = true
    · simp [h, Finset.subset_union_left]
    · simp only [h, Bool.false_eq_true, if_false]
      cases lf with
      | some l => simp [Finset.subset_union_left]
      | none => exact Finset.Subset.refl _
  | mark d rf lf now url =>
    simp only [seen_step, mark_seen]
    by_cases h : url = ""
    · simp [h]
    · simp only [h, if_neg, if_false]
      simp [Finset.subset_insert]
  | query u => exact Finset.Subset.refl _

theorem seen_run_mono (s : SeenSt) (ops : List SeenOp) :
    s.cache ⊆ (seen_run s ops).cache := by
  induction ops generalizing s with
  | nil => exact Finset.Subset.refl _
  | cons op rest ih =>
    exact (seen_step_mono s op).trans (ih (seen_step s op))

/-! ### Claim theorems -/

/-- C1 counterexample: with the remote store available, load_seen_jobs
(seen_jobs.py) never reads the local mirror: hydrating from local
mirror list ["a", "b"] and remote ids {b, c} yields {b, c}, not the
union {a, b, c} the claim requires. -/
theorem load_seen_jobs_skips_local_counterexample :
    (load_seen_jobs true true (some ["a", "b"])
        ⟨∅, ∅, [("b", 0), ("c", 0)]⟩).cache ≠ ({"a", "b", "c"} : Finset String) ∧
    "a" ∉ (load_seen_jobs true true (some ["a", "b"])
        ⟨∅, ∅, [("b", 0), ("c", 0)]⟩).cache := by
  constructor
  · decide
  · decide

/-- C1 (amended): the orchestrator's hydration _load_seen_urls (bot.py)
does produce exactly the union of the local mirror list and the remote
ids, and in particular maps local {a, b} and remote {b, c} to
{a, b, c}; the seen-jobs module's hydration load_seen_jobs instead
consults the local mirror only as a fallback: with the remote store
available it adds only the remote ids to the prior cache, and only
without a usable remote store does it add the local mirror list. -/
theorem hydration_union_amended (L : List String) (R : Finset String)
    (s : SeenSt) (remoteOk : Bool) :
    load_seen_urls (some L) true R = L.toFinset ∪ R ∧
    load_seen_urls (some ["a", "b"]) true {"b", "c"} = {"a", "b", "c"} ∧
    (load_seen_jobs true true (some L) s).cache =
      s.cache ∪ ((s.remote.take 10000).map Prod.fst).toFinset ∧
    (load_seen_jobs false remoteOk (some L) s).cache = s.cache ∪ L.toFinset := by
  refine ⟨?_, by decide, by simp [load_seen_jobs], by simp [load_seen_jobs]⟩
  unfold load_seen_urls
  by_cases h : R = ∅
  · simp [h]
  · simp [h]

/-- C2 counterexample: cleanup_seen_jobs with a Firestore client
removes from the in-memory cache every identity whose remote seen_at is
older than the cutoff: starting from cache {u} with remote doc
(u, time 0) and running cleanup at time 30 days + 1 second with the
default 30-day window, u is un-marked, so the post-operation seen set
is not a superset of the pre-operation one. -/
theorem cleanup_unmarks_counterexample :
    "u" ∈ (⟨{"u"}, ∅, [("u", 0)]⟩ : SeenSt).cache ∧
    "u" ∉ (cleanup_seen_jobs true (30 * 86400 + 1)
      ⟨{"u"}, ∅, [("u", 0)]⟩ 30).cache := by
  constructor
  · decide
  · decide

/-- C2 (amended): hydration, has_seen queries and mark_seen never
remove an identity — over any sequence of such operations the
in-memory seen set only grows; cleanup_seen_jobs is the one exception:
it can remove an identity from the cache, but only when a Firestore
client exists and the identity has a remote entry older than
now - days * 86400. -/
theorem append_only_amended (s : SeenSt) (ops : List SeenOp)
    (d : Bool) (now days : Int) :
    s.cache ⊆ (seen_run s ops).cache ∧
    ∀ u ∈ s.cache, u ∉ (cleanup_seen_jobs d now s days).cache →
      d = true ∧ ∃ t, (u, t) ∈ s.remote ∧ t < now - days * 86400 := by
  refine ⟨seen_run_mono s ops, ?_⟩
  intro u hu hnot
  unfold cleanup_seen_jobs at hnot
  by_cases hd : d = true
  · subst hd
    simp only [Bool.not_true, Bool.false_eq_true, if_false] at hnot
    refine ⟨rfl, ?_⟩
    rw [Finset.mem_sdiff, not_and, not_not] at hnot
    have hin := hnot hu
    rw [List.mem_toFinset, List.mem_map] at hin
    obtain ⟨p, hp, hpu⟩ := hin
    have hp' := List.take_subset 1000 _ hp
    rw [List.mem_filter] at hp'
    obtain ⟨hpr, hpc⟩ := hp'
    rw [decide_eq_true_eq] at hpc
    refine ⟨p.2, ?_, hpc⟩
    have : p = (u, p.2) := by
      rw [← hpu]
    rw [← this]
    exact hpr
  · have hd' : d = false := by
      cases d
      · rfl
      · exact absurd rfl hd
    subst hd'
    simp only [Bool.not_false, if_true] at hnot
    exact absurd hu hnot

theorem append_only_amended_witness :
    ({"u"} : Finset String) ⊆ (seen_run ⟨{"u"}, ∅, [("u", 0)]⟩
        [SeenOp.mark true false false 5 "v"]).cache ∧
    (true = true ∧ ∃ t, ("u", t) ∈ [("u", (0 : Int))] ∧
      t < 30 * 86400 + 1 - 30 * 86400) := by
  have h := append_only_amended ⟨{"u"}, ∅, [("u", 0)]⟩
      [SeenOp.mark true false false 5 "v"] true (30 * 86400 + 1) 30
  exact ⟨h.1, h.2 "u" (by decide) (by decide)⟩

/-- C3: the recency filter fails closed — a record whose posted_date is
missing (or falsy) or an unparseable string is never in the output of
filter_last_24_hours, hence never among the fresh records derived from
that output. -/
theorem recency_fail_closed (now : Int) (l : List JobDict) (j : JobDict)
    (h : j.posted = PostedVal.missing ∨ j.posted = PostedVal.unparseable) :
    j ∉ filter_last_24_hours now l := by
  intro hmem
  unfold filter_last_24_hours at hmem
  by_cases he : l.isEmpty
  · simp [he] at hmem
  · rw [if_neg he] at hmem
    rw [List.mem_filter] at hmem
    rcases h with h | h <;> simp [keep_last_24h, h] at hmem

theorem recency_fail_closed_witness :
    (⟨"u", PostedVal.missing⟩ : JobDict).posted = PostedVal.missing ∧
    (⟨"u", PostedVal.missing⟩ : JobDict) ∉
      filter_last_24_hours 0 [⟨"u", PostedVal.missing⟩, ⟨"v", PostedVal.time 0⟩] :=
  ⟨rfl, recency_fail_closed 0 _ _ (Or.inl rfl)⟩

/-- C4: recency boundary — relative to evaluation time now, a record
posted 24 hours and 1 second earlier is excluded by the recency filter
and a record posted 23 hours 59 minutes earlier is included. -/
theorem recency_boundary (now : Int) (l : List JobDict) (j : JobDict)
    (hmem : j ∈ l) :
    (j.posted = PostedVal.time (now - 86401) → j ∉ filter_last_24_hours now l) ∧
    (j.posted = PostedVal.time (now - 86340) → j ∈ filter_last_24_hours now l) := by
  have hne : ¬l.isEmpty = true := by
    cases l
    · simp at hmem
    · simp
  constructor
  · intro hp hin
    unfold filter_last_24_hours at hin
    rw [if_neg hne] at hin
    rw [List.mem_filter] at hin
    have := hin.2
    simp only [keep_last_24h, hp, decide_eq_true_eq] at this
    omega
  · intro hp
    unfold filter_last_24_hours
    rw [if_neg hne]
    rw [List.mem_filter]
    refine ⟨hmem, ?_⟩
    simp only [keep_last_24h, hp, decide_eq_true_eq]
    omega

theorem recency_boundary_witness :
    (⟨"x", PostedVal.time (0 - 86401)⟩ : JobDict) ∉
      filter_last_24_hours 0
        [⟨"x", PostedVal.time (0 - 86401)⟩, ⟨"y", PostedVal.time (0 - 86340)⟩] ∧
    (⟨"y", PostedVal.time (0 - 86340)⟩ : JobDict) ∈
      filter_last_24_hours 0
        [⟨"x", PostedVal.time (0 - 86401)⟩, ⟨"y", PostedVal.time (0 - 86340)⟩] :=
  ⟨(recency_boundary 0 _ _ (by decide)).1 rfl,
   (recency_boundary 0 _ _ (by decide)).2 rfl⟩

/-- C5: chunking fresh records with batch size 5 yields ceil(n/5)
batches whose in-order concatenation is the original list, every batch
has at most 5 records, every batch except possibly the last has exactly
5, and 12 records yield batches of sizes [5, 5, 2] in original order. -/
theorem batch_sizes_and_order (fresh : List Internship) :
    (telegram_chunks fresh).flatten = fresh ∧
    (telegram_chunks fresh).length = (fresh.length + 4) / 5 ∧
    (∀ c ∈ telegram_chunks fresh, c.length ≤ 5) ∧
    (∀ c ∈ (telegram_chunks fresh).dropLast, c.length = 5) ∧
    (telegram_chunks dozen_records).map List.length = [5, 5, 2] ∧
    (telegram_chunks dozen_records).flatten = dozen_records := by
  unfold telegram_chunks
  rw [chunk_list_five_eq]
  exact ⟨chunksRec_flatten 4 fresh, chunksRec_length_four fresh,
    chunksRec_mem_le 4 fresh, chunksRec_dropLast 4 fresh,
    by decide, by decide⟩

theorem batch_sizes_and_order_witness :
    (∀ c ∈ telegram_chunks dozen_records, c.length ≤ 5) ∧
    (∀ c ∈ (telegram_chunks dozen_records).dropLast, c.length = 5) ∧
    (telegram_chunks dozen_records).map List.length = [5, 5, 2] :=
  ⟨(batch_sizes_and_order dozen_records).2.2.1,
   (batch_sizes_and_order dozen_records).2.2.2.1,
   (batch_sizes_and_order dozen_records).2.2.2.2.1⟩

/-- C6: fan-out isolation — a fetcher that raises contributes the empty
list, the merged list of fetch_all_internships is exactly the in-order
concatenation of the per-fetcher results, and in particular one raising
fetcher next to one succeeding fetcher yields exactly the successful
fetcher's records; fetch_all_internships is a total function of the
fetch behaviours, so no exception escapes the fetch phase. -/
theorem fan_out_isolation (e : String) (recs : List Internship)
    (fs : List FetchBehavior) :
    process_fetcher (FetchBehavior.raises e) = [] ∧
    fetch_all_internships
      [FetchBehavior.raises e, FetchBehavior.returns (some recs)] = recs ∧
    fetch_all_internships fs = (fs.map process_fetcher).flatten := by
  have hcomp : (fun f => (Except.ok (process_fetcher f) :
      Except String (List Internship))) =
      (fun l => (Except.ok l : Except String (List Internship))) ∘
        process_fetcher := rfl
  refine ⟨rfl, ?_, ?_⟩
  · show fetch_all_internships _ = recs
    unfold fetch_all_internships
    rw [if_neg (by simp)]
    rw [hcomp, ← List.map_map, foldl_ok_append]
    simp [process_fetcher]
  · unfold fetch_all_internships
    by_cases h : fs.isEmpty
    · rw [if_pos h]
      cases fs
      · simp
      · simp at h
    · rw [if_neg h, hcomp, ← List.map_map, foldl_ok_append]
      simp

/-- C7 counterexample: mark_seen guards on a falsy url, so the empty
identity is not in the in-memory cache after mark_seen returns even
though both tier writes succeeded — the claim's universal statement
over all identities fails at the empty identity. -/
theorem mark_seen_empty_url_counterexample :
    "" ∉ (mark_seen true false false 0 ⟨∅, ∅, []⟩ "").1.cache := by
  decide

/-- C7 (amended): a tier write failure never removes the in-memory
addition — save_internship (bot.py) leaves seen_urls equal to
insert url seen_urls whatever the remote and local write outcomes, and
mark_seen (seen_jobs.py) does the same for its cache for every
non-empty identity (an empty identity is a no-op by its falsy guard). -/
theorem no_rollback_amended (remoteFails localFails : Bool) (s : BotSt)
    (url : String) (d rf lf : Bool) (now : Int) (st : SeenSt) (u : String) :
    (save_internship remoteFails localFails s url).seen_urls =
      insert url s.seen_urls ∧
    (u ≠ "" → (mark_seen d rf lf now st u).1.cache = insert u st.cache) := by
  constructor
  · rfl
  · intro hu
    simp [mark_seen, hu]

theorem no_rollback_amended_witness :
    (save_internship true true ⟨∅, ∅⟩ "x").seen_urls =
      insert "x" (∅ : Finset String) ∧
    (mark_seen true true true 0 ⟨∅, ∅, []⟩ "x").1.cache =
      insert "x" (∅ : Finset String) :=
  ⟨(no_rollback_amended true true ⟨∅, ∅⟩ "x" true true true 0 ⟨∅, ∅, []⟩ "x").1,
   (no_rollback_amended true true ⟨∅, ∅⟩ "x" true true true 0 ⟨∅, ∅, []⟩ "x").2
     (by decide)⟩

/-- C8 counterexample: equality of records is sensitive to letter case
and to a trailing slash — two constructions of semantically identical
urls differing only in host case, or only in a trailing slash, compare
unequal, because normalization is whitespace-stripping only. -/
theorem identity_normalization_counterexample :
    ieq (Internship.make "T" "C" "L" "https://Example.com/jobs/1" "src"
        (some 0) (some "") 0)
      (Internship.make "T" "C" "L" "https://example.com/jobs/1" "src"
        (some 0) (some "") 0) = false ∧
    ieq (Internship.make "T" "C" "L" "https://example.com/jobs/1/" "src"
        (some 0) (some "") 0)
      (Internship.make "T" "C" "L" "https://example.com/jobs/1" "src"
        (some 0) (some "") 0) = false := by
  constructor
  · decide
  · decide

/-- C8 (amended): two records are equal iff their normalized urls are
equal, where the implemented normalization is whitespace-stripping of
the raw url and nothing else (so equality is case-, slash- and
query-sensitive), and equal records hash equally. -/
theorem identity_equality_amended
    (t1 c1 l1 u1 s1 : String) (p1 : Option Int) (d1 : Option String) (n1 : Int)
    (t2 c2 l2 u2 s2 : String) (p2 : Option Int) (d2 : Option String) (n2 : Int)
    (a b : Internship) :
    (ieq (Internship.make t1 c1 l1 u1 s1 p1 d1 n1)
        (Internship.make t2 c2 l2 u2 s2 p2 d2 n2) = true ↔
      py_strip u1 = py_strip u2) ∧
    (ieq a b = true ↔ a.url = b.url) ∧
    (ieq a b = true → ihash a = ihash b) := by
  refine ⟨?_, ?_, ?_⟩
  · simp [ieq, Internship.make]
  · simp [ieq]
  · intro h
    simp only [ieq, beq_iff_eq] at h
    unfold ihash
    rw [h]

theorem identity_equality_amended_witness :
    (ieq (Internship.make "T" "C" "L" " https://example.com/a " "src"
        (some 0) (some "") 0)
      (Internship.make "T2" "C2" "L2" "https://example.com/a" "src"
        (some 0) (some "") 0) = true ↔
      py_strip " https://example.com/a " = py_strip "https://example.com/a") ∧
    ihash (Internship.make "T" "C" "L" " https://example.com/a " "src"
        (some 0) (some "") 0) =
      ihash (Internship.make "T2" "C2" "L2" "https://example.com/a" "src"
        (some 0) (some "") 0) :=
  ⟨(identity_equality_amended "T" "C" "L" " https://example.com/a " "src"
      (some 0) (some "") 0 "T2" "C2" "L2" "https://example.com/a" "src"
      (some 0) (some "") 0
      (Internship.make "T" "C" "L" " https://example.com/a " "src"
        (some 0) (some "") 0)
      (Internship.make "T2" "C2" "L2" "https://example.com/a" "src"
        (some 0) (some "") 0)).1,
   (identity_equality_amended "T" "C" "L" " https://example.com/a " "src"
      (some 0) (some "") 0 "T2" "C2" "L2" "https://example.com/a" "src"
      (some 0) (some "") 0
      (Internship.make "T" "C" "L" " https://example.com/a " "src"
        (some 0) (some "") 0)
      (Internship.make "T2" "C2" "L2" "https://example.com/a" "src"
        (some 0) (some "") 0)).2.2 (by decide)⟩

/-- C9: mark_seen is idempotent — recording the same identity twice in
succession yields exactly the state of recording it once, and in
particular the cache cardinality is unchanged by the second call. -/
theorem dedup_idempotent (d rf lf : Bool) (now : Int) (s : SeenSt)
    (url : String) :
    mark_seen d rf lf now (mark_seen d rf lf now s url).1 url =
      mark_seen d rf lf now s url ∧
    (mark_seen d rf lf now (mark_seen d rf lf now s url).1 url).1.cache.card =
      (mark_seen d rf lf now s url).1.cache.card := by
  have hmain : mark_seen d rf lf now (mark_seen d rf lf now s url).1 url =
      mark_seen d rf lf now s url := by
    by_cases hu : url = ""
    · simp [mark_seen, hu]
    · cases d <;> cases rf <;> cases lf <;>
        simp [mark_seen, hu, Finset.insert_idem, List.filter_filter]
  exact ⟨hmain, by rw [hmain]⟩

/-- C10: mark_seen with a falsy url is a no-op — the state (in-memory
cache, local mirror, remote store) is unchanged and no external tier is
contacted. -/
theorem mark_seen_falsy_noop (d rf lf : Bool) (now : Int) (s : SeenSt) :
    mark_seen d rf lf now s "" = (s, []) := by
  simp [mark_seen]

end InternshipBot
